import Mathlib

/-!
Verification of the mcp-substack server (src/lib/index.mjs).

The development shallowly embeds the pure request-processing pipeline:
URL validation (validateUrl), Substack marker detection, and the
title/subtitle/author/body extraction performed by the
CallToolRequestSchema handler, together with the response envelope it
produces. Strings are modelled through their character lists so that
every operation evaluates inside the kernel.
-/

namespace Substack

/-- Whitespace test used by the JS trim model. -/
def isSpc (c : Char) : Bool := c.isWhitespace

/-- Trim whitespace from both ends of a character list. -/
def trimList (l : List Char) : List Char :=
  ((l.dropWhile isSpc).reverse.dropWhile isSpc).reverse

/-- Model of the JavaScript String.trim method. -/
def strTrim (s : String) : String := ⟨trimList s.data⟩

/-- leadsWith l p is true when p is a leading segment of l. -/
def leadsWith : List Char → List Char → Bool
  | _, [] => true
  | [], _ :: _ => false
  | c :: cs, d :: ds => c == d && leadsWith cs ds

/-- Model of the JavaScript String.endsWith method. -/
def strEndsWith (s suf : String) : Bool :=
  leadsWith s.data.reverse suf.data.reverse

/-- listHasSub pat l is true when pat occurs as a contiguous segment of l. -/
def listHasSub (pat : List Char) : List Char → Bool
  | [] => leadsWith [] pat
  | c :: cs => leadsWith (c :: cs) pat || listHasSub pat cs

/-- Substring containment, as used by the CSS attribute selector [a*=v]. -/
def strContainsSub (s pat : String) : Bool := listHasSub pat.data s.data

/-- Split a character list on whitespace, dropping empty segments. -/
def splitWS : List Char → List Char → List (List Char)
  | [], acc => if acc = [] then [] else [acc.reverse]
  | c :: cs, acc =>
    if isSpc c then
      (if acc = [] then splitWS cs [] else acc.reverse :: splitWS cs [])
    else splitWS cs (c :: acc)

/-- First value bound to an attribute name, as an HTML parser keeps it. -/
def getAttr : List (String × String) → String → Option String
  | [], _ => none
  | (k, v) :: rest, n => if k = n then some v else getAttr rest n

/-- CSS class-selector test over an attribute list. -/
def attrsHaveClass (attrs : List (String × String)) (c : String) : Bool :=
  match getAttr attrs "class" with
  | none => false
  | some v => (splitWS v.data []).contains c.data

/-- A word character of the JavaScript regular-expression class [A-Za-z0-9_]. -/
def isWordChar (c : Char) : Bool := c.isAlphanum || c == '_'

/-- Character-list form of the anchored regular-expression test for a
/p/ path: the first three characters are /, p, / and the fourth is a
word character or hyphen. -/
def pathListMatches : List Char → Bool
  | c1 :: c2 :: c3 :: c4 :: _ =>
    c1 == '/' && c2 == 'p' && c3 == '/' && (isWordChar c4 || c4 == '-')
  | _ => false

/-- Model of the test of the anchored regular expression for a /p/ path,
matching a pathname that starts with /p/ followed by at least one word
character or hyphen (src/lib/index.mjs line 26). -/
def pathMatchesP (path : String) : Bool := pathListMatches path.data

/-- The parsed-URL record: the two components validateUrl reads. -/
structure URLRec where
  hostname : String
  pathname : String
deriving DecidableEq, Repr

/-- Model of validateUrl (src/lib/index.mjs lines 17 to 39) applied to the
outcome of URL parsing: a parse failure (caught exception) yields false,
otherwise the host/path disjunction decides. -/
def validateUrl : Option URLRec → Bool
  | none => false
  | some u => strEndsWith u.hostname ".substack.com" || pathMatchesP u.pathname

/-- validateUrl on a raw string, given an ambient URL parser standing for
the platform URL constructor. -/
def validateUrlStr (parse : String → Option URLRec) (s : String) : Bool :=
  validateUrl (parse s)

mutual
/-- A parsed HTML node: an element with tag, attributes and children, or
raw text. This is the queryable DOM the cheerio load step yields. -/
inductive Node where
  | text (s : String)
  | elem (tag : String) (attrs : List (String × String)) (children : NodeList)
/-- Children of an element, as a bespoke list so that all traversals are
structural mutual recursions that the kernel evaluates. -/
inductive NodeList where
  | nil
  | cons (n : Node) (ns : NodeList)
end

/-- Convert an ordinary list of nodes into a NodeList. -/
def nl : List Node → NodeList
  | [] => .nil
  | n :: ns => .cons n (nl ns)

mutual
/-- Text content of a node: concatenation of all descendant text nodes,
the cheerio text method on one element. -/
def nodeText : Node → String
  | .text s => s
  | .elem _ _ cs => nodeListText cs
/-- Text content of a sequence of sibling nodes. -/
def nodeListText : NodeList → String
  | .nil => ""
  | .cons n ns => nodeText n ++ nodeListText ns
end

mutual
/-- All elements satisfying p, in document (pre-)order, starting at a node. -/
def selectNode (p : Node → Bool) : Node → List Node
  | .text _ => []
  | .elem t a c =>
    (if p (.elem t a c) then [Node.elem t a c] else []) ++ selectList p c
/-- All elements satisfying p, in document order, over a node sequence. -/
def selectList (p : Node → Bool) : NodeList → List Node
  | .nil => []
  | .cons n ns => selectNode p n ++ selectList p ns
end

mutual
/-- Elements satisfying q that are strict descendants of some element
satisfying contP, collected in document order: the cheerio find call on
the selection of contP matches (descendants of at least one matched
container, each node once, document order). The flag inside records
whether an ancestor matched contP. -/
def findDesc (contP q : Node → Bool) (inside : Bool) : Node → List Node
  | .text _ => []
  | .elem t a c =>
    (if inside && q (.elem t a c) then [Node.elem t a c] else []) ++
      findDescList contP q (inside || contP (.elem t a c)) c
/-- findDesc over a node sequence. -/
def findDescList (contP q : Node → Bool) (inside : Bool) : NodeList → List Node
  | .nil => []
  | .cons n ns => findDesc contP q inside n ++ findDescList contP q inside ns
end

/-- Tag-name selector. -/
def isTag (t : String) : Node → Bool
  | .elem tg _ _ => tg = t
  | _ => false

/-- Class selector over a node. -/
def nodeHasClass (c : String) : Node → Bool
  | .elem _ a _ => attrsHaveClass a c
  | _ => false

/-- Attribute-substring selector [name*=pat] over a node. -/
def attrContains (name pat : String) : Node → Bool
  | .elem _ a _ =>
    match getAttr a name with
    | some v => strContainsSub v pat
    | none => false
  | _ => false

/-- Selector meta[content*="substack"]. -/
def isMetaMarker (n : Node) : Bool := isTag "meta" n && attrContains "content" "substack" n

/-- Selector script[src*="substack"]. -/
def isScriptMarker (n : Node) : Bool := isTag "script" n && attrContains "src" "substack" n

/-- Marker check of src/lib/index.mjs lines 99 to 104: any of the four
selections nonempty. -/
def hasSubstackMarkers (doc : NodeList) : Bool :=
  decide (0 < (selectList isMetaMarker doc).length) ||
  decide (0 < (selectList isScriptMarker doc).length) ||
  decide (0 < (selectList (nodeHasClass "post-content") doc).length) ||
  decide (0 < (selectList (nodeHasClass "subscriber-only") doc).length)

/-- Concatenated text of a selection, the cheerio text method on a set. -/
def textsConcat : List Node → String
  | [] => ""
  | n :: ns => nodeText n ++ textsConcat ns

/-- Title extraction (line 117): trimmed text of the first h1, falling
back through the JS or-operator to the trimmed text of all h1.post-title
elements when that is empty. -/
def extractTitle (doc : NodeList) : String :=
  let t1 :=
    match selectList (isTag "h1") doc with
    | [] => ""
    | n :: _ => strTrim (nodeText n)
  if t1 = "" then
    strTrim (textsConcat (selectList (fun n => isTag "h1" n && nodeHasClass "post-title" n) doc))
  else t1

/-- Subtitle extraction (line 120): trimmed concatenated text of every
element with class subtitle. -/
def extractSubtitle (doc : NodeList) : String :=
  strTrim (textsConcat (selectList (nodeHasClass "subtitle") doc))

/-- Author extraction (line 121): trimmed text of the author-name
elements, else of the a.subscriber-only elements. -/
def extractAuthor (doc : NodeList) : String :=
  let a1 := strTrim (textsConcat (selectList (nodeHasClass "author-name") doc))
  if a1 = "" then
    strTrim (textsConcat (selectList (fun n => isTag "a" n && nodeHasClass "subscriber-only" n) doc))
  else a1

/-- Container selector .post-content, article, .body (line 125). -/
def isContainer (n : Node) : Bool :=
  nodeHasClass "post-content" n || isTag "article" n || nodeHasClass "body" n

/-- Paragraph or heading selector p, h2, h3 (line 125). -/
def isPara (n : Node) : Bool := isTag "p" n || isTag "h2" n || isTag "h3" n

/-- The body accumulator loop (lines 124 to 127): trimmed text of each
found node followed by a blank line. -/
def bodyJoin : List Node → String
  | [] => ""
  | n :: ns => strTrim (nodeText n) ++ "\n\n" ++ bodyJoin ns

/-- Assembled body text of the document. -/
def extractBody (doc : NodeList) : String :=
  bodyJoin (findDescList isContainer isPara false doc)

/-- One block of the response envelope. -/
structure ContentBlock where
  ctype : String
  text : String
deriving DecidableEq, Repr

/-- The outward result: content blocks plus the optional isError field
(none when the field is absent from the returned object). -/
structure ToolResult where
  content : List ContentBlock
  isError : Option Bool
deriving DecidableEq, Repr

/-- Failure payload for an inadmissible URL (lines 79 to 85). -/
def invalidUrlResult : ToolResult :=
  ⟨[⟨"text", "Invalid URL format. Please provide a valid Substack post URL. This could be either a substack.com domain or a custom domain with a Substack post structure."⟩], some true⟩

/-- Failure payload when no Substack marker is found (lines 106 to 115). -/
def notSubstackResult : ToolResult :=
  ⟨[⟨"text", "This URL doesn\x27t appear to be a Substack post. Please ensure you\x27re providing a valid Substack article URL."⟩], some true⟩

/-- Failure payload for an empty assembled body (lines 130 to 141). -/
def subscriberOnlyResult : ToolResult :=
  ⟨[⟨"text", "This appears to be a subscriber-only post. I cannot access the full content."⟩], some true⟩

/-- Failure payload of the catch branch (lines 152 to 163). -/
def fetchErrorResult (e : String) : ToolResult :=
  ⟨[⟨"text", "Error processing Substack post: " ++ e⟩], some true⟩

/-- Success payload (lines 143 to 151): the formatted article text, with
no isError field. -/
def successResult (doc : NodeList) : ToolResult :=
  ⟨[⟨"text", "Title: " ++ extractTitle doc ++ "\nAuthor: " ++ extractAuthor doc ++
      "\nSubtitle: " ++ extractSubtitle doc ++ "\n\n" ++ extractBody doc⟩], none⟩

/-- The parse-classify-extract pass on a fetched document (lines 96 to
151): marker gate, then paywall gate on the assembled body, then success. -/
def processDocument (doc : NodeList) : ToolResult :=
  if hasSubstackMarkers doc = false then notSubstackResult
  else if extractBody doc = "" then subscriberOnlyResult
  else successResult doc

/-- The CallToolRequestSchema handler (lines 68 to 164): an unknown tool
name throws (Except.error), every other outcome is a returned result.
The URL-parse outcome and the fetch outcome stand in for the platform
URL constructor and the network. -/
def handleRequest (name : String) (pu : Option URLRec)
    (fetched : Except String NodeList) : Except String ToolResult :=
  if name = "download_substack" then
    .ok
      (if validateUrl pu = false then invalidUrlResult
       else
         match fetched with
         | .error e => fetchErrorResult e
         | .ok doc => processDocument doc)
  else .error ("Unknown tool: " ++ name)

/-- Declarative reading of the path rule of the specification: the path
starts with /p/ followed by a nonempty block of word characters or
hyphens (anything may follow that block). -/
def admissiblePathSpec (path : String) : Prop :=
  ∃ w rest : String, path = "/p/" ++ w ++ rest ∧ w.data ≠ [] ∧
    ∀ c ∈ w.data, isWordChar c = true ∨ c = '-'

/-- The subtitle rule as the specification words it: the trimmed text of
the first element with class subtitle, empty when none exists. Stated
separately from extractSubtitle so the two can be compared. -/
def subtitleSpecFirst (doc : NodeList) : String :=
  match selectList (nodeHasClass "subtitle") doc with
  | [] => ""
  | n :: _ => strTrim (nodeText n)

/-- The document of specification Scenario 1: a meta substack marker, an
h1 title and a post-content container holding one paragraph. -/
def scen1Doc : NodeList := nl [
  .elem "meta" [("content", "substack...")] (nl []),
  .elem "h1" [] (nl [.text "My Title"]),
  .elem "div" [("class", "post-content")] (nl [.elem "p" [] (nl [.text "Hello"])])
]

/-- The document of specification Scenario 3: a post-content marker whose
only content is a subscriber banner, with no paragraph or heading. -/
def scen3Doc : NodeList := nl [
  .elem "div" [("class", "post-content")] (nl [
    .elem "div" [("class", "subscriber-only")] (nl [.text "Subscribe to read"])])
]

/-- A document with two subtitle elements, separating the concatenating
behaviour of the code from the first-element reading. -/
def twoSubtitleDoc : NodeList := nl [
  .elem "meta" [("content", "substack-powered")] (nl []),
  .elem "div" [("class", "subtitle")] (nl [.text "A"]),
  .elem "div" [("class", "subtitle")] (nl [.text "B"]),
  .elem "div" [("class", "post-content")] (nl [.elem "p" [] (nl [.text "Body"])])
]

/-- A document carrying none of the four Substack markers. -/
def noMarkersDoc : NodeList := nl [
  .elem "div" [] (nl [.elem "p" [] (nl [.text "plain page"])])
]

theorem leadsWith_iff : ∀ (p l : List Char), leadsWith l p = true ↔ ∃ r, l = p ++ r := by
  intro p
  induction p with
  | nil => intro l; simp [leadsWith]
  | cons d ds ih =>
    intro l
    cases l with
    | nil => simp [leadsWith]
    | cons c cs =>
      simp only [leadsWith, Bool.and_eq_true, beq_iff_eq, ih, List.cons_append,
        List.cons.injEq, exists_and_left]

theorem strEndsWith_iff (s t : String) :
    strEndsWith s t = true ↔ ∃ p : String, s = p ++ t := by
  unfold strEndsWith
  rw [leadsWith_iff]
  constructor
  · rintro ⟨r, hr⟩
    refine ⟨⟨r.reverse⟩, String.ext ?_⟩
    have h2 := congrArg List.reverse hr
    simp only [List.reverse_reverse, List.reverse_append] at h2
    simpa [String.data_append] using h2
  · rintro ⟨p, rfl⟩
    refine ⟨p.data.reverse, ?_⟩
    simp [String.data_append, List.reverse_append]

theorem pathListMatches_iff (l : List Char) :
    pathListMatches l = true ↔
      ∃ c rest, l = '/' :: 'p' :: '/' :: c :: rest ∧ (isWordChar c = true ∨ c = '-') := by
  match l with
  | [] => simp [pathListMatches]
  | [c1] => simp [pathListMatches]
  | [c1, c2] => simp [pathListMatches]
  | [c1, c2, c3] => simp [pathListMatches]
  | c1 :: c2 :: c3 :: c4 :: rest =>
    simp only [pathListMatches, Bool.and_eq_true, Bool.or_eq_true, beq_iff_eq,
      List.cons.injEq]
    constructor
    · rintro ⟨⟨⟨h1, h2⟩, h3⟩, h4⟩
      exact ⟨c4, rest, ⟨h1, h2, h3, rfl, rfl⟩, h4⟩
    · rintro ⟨c, r, ⟨h1, h2, h3, hc, hr⟩, h4⟩
      subst h1; subst h2; subst h3; subst hc; subst hr
      exact ⟨⟨⟨rfl, rfl⟩, rfl⟩, h4⟩

theorem pathMatchesP_iff (s : String) :
    pathMatchesP s = true ↔ admissiblePathSpec s := by
  unfold pathMatchesP admissiblePathSpec
  rw [pathListMatches_iff]
  constructor
  · rintro ⟨c, rest, hdata, hc⟩
    refine ⟨⟨[c]⟩, ⟨rest⟩, String.ext ?_, by simp, ?_⟩
    · simp only [String.data_append, hdata]
      rfl
    · intro x hx
      have hx2 : x = c := by simpa using hx
      subst hx2
      exact hc
  · rintro ⟨w, rest, hpath, hw, hall⟩
    obtain ⟨c, cs, hcs⟩ : ∃ c cs, w.data = c :: cs := by
      cases h : w.data with
      | nil => exact absurd h hw
      | cons a b => exact ⟨a, b, rfl⟩
    refine ⟨c, cs ++ rest.data, ?_, hall c (by simp [hcs])⟩
    rw [hpath]
    simp only [String.data_append, hcs]
    rfl

theorem str_append_empty (s : String) : s ++ "" = s := by
  apply String.ext
  simp [String.data_append]

/-- C1: validateUrl accepts a well-formed URL exactly when the host ends
with the literal suffix .substack.com or the path starts with /p/
followed by one or more word characters or hyphens; in particular every
URL with such a host is accepted regardless of path, and every URL with
such a path is accepted regardless of host. -/
theorem validateUrl_admissible_iff (u : URLRec) :
    validateUrl (some u) = true ↔
      ((∃ p : String, u.hostname = p ++ ".substack.com") ∨
        admissiblePathSpec u.pathname) := by
  simp only [validateUrl, Bool.or_eq_true]
  rw [strEndsWith_iff, pathMatchesP_iff]

/-- Witness for C1 at a concrete URL: a substack.com subdomain with a
non-post path is accepted through the host disjunct. -/
theorem validateUrl_admissible_iff_witness :
    validateUrl (some ⟨"foo.substack.com", "/about"⟩) = true :=
  (validateUrl_admissible_iff ⟨"foo.substack.com", "/about"⟩).mpr
    (Or.inl ⟨"foo", by decide⟩)

/-- C5: when URL parsing fails, validateUrl evaluates to false; being a
total function of the parse outcome, no exception reaches the caller. -/
theorem validateUrl_parse_failure (parse : String → Option URLRec) (s : String)
    (h : parse s = none) : validateUrlStr parse s = false := by
  unfold validateUrlStr
  rw [h]
  rfl

/-- Witness for C5: a parser rejecting everything makes validateUrl
return false on a malformed input string. -/
theorem validateUrl_parse_failure_witness :
    validateUrlStr (fun _ => none) "::not a url::" = false :=
  validateUrl_parse_failure (fun _ => none) "::not a url::" rfl

/-- C9: the host rule requires a leading dot. When the host does not end
in .substack.com the verdict is exactly the path test; the hosts
substack.com and evilsubstack.com lack the dotted suffix, so they are
rejected with a non-post path and accepted only through a /p/ path. -/
theorem validateUrl_requires_dot :
    (∀ u : URLRec, strEndsWith u.hostname ".substack.com" = false →
        validateUrl (some u) = pathMatchesP u.pathname) ∧
    strEndsWith "substack.com" ".substack.com" = false ∧
    strEndsWith "evilsubstack.com" ".substack.com" = false ∧
    validateUrl (some ⟨"substack.com", "/about"⟩) = false ∧
    validateUrl (some ⟨"evilsubstack.com", "/about"⟩) = false ∧
    validateUrl (some ⟨"substack.com", "/p/my-article"⟩) = true := by
  refine ⟨?_, by decide, by decide, by decide, by decide, by decide⟩
  intro u h
  simp only [validateUrl, h, Bool.false_or]

/-- Witness for C9: with host substack.com and a non-post path the
verdict equals the path test, hence false. -/
theorem validateUrl_requires_dot_witness :
    validateUrl (some ⟨"substack.com", "/notes"⟩) = pathMatchesP "/notes" :=
  validateUrl_requires_dot.1 ⟨"substack.com", "/notes"⟩ (by decide)

/-- C2: the pipeline answers with the not-a-Substack-post failure exactly
when all four marker selections are empty, and in that case the result
carries the error flag, so it is never a success. -/
theorem processDocument_notSubstack_iff (doc : NodeList) :
    (processDocument doc = notSubstackResult ↔
       (selectList isMetaMarker doc).length = 0 ∧
       (selectList isScriptMarker doc).length = 0 ∧
       (selectList (nodeHasClass "post-content") doc).length = 0 ∧
       (selectList (nodeHasClass "subscriber-only") doc).length = 0) ∧
    (hasSubstackMarkers doc = false → (processDocument doc).isError = some true) := by
  have hmark : hasSubstackMarkers doc = false ↔
      ((selectList isMetaMarker doc).length = 0 ∧
       (selectList isScriptMarker doc).length = 0 ∧
       (selectList (nodeHasClass "post-content") doc).length = 0 ∧
       (selectList (nodeHasClass "subscriber-only") doc).length = 0) := by
    simp [hasSubstackMarkers, Nat.pos_iff_ne_zero, and_assoc]
  have hneq1 : subscriberOnlyResult ≠ notSubstackResult := by decide
  have hneq2 : ∀ d, successResult d ≠ notSubstackResult := by
    intro d h
    have h2 := congrArg ToolResult.isError h
    simp [successResult, notSubstackResult] at h2
  refine ⟨⟨?_, ?_⟩, ?_⟩
  · intro heq
    rw [← hmark]
    by_contra hm
    unfold processDocument at heq
    rw [if_neg hm] at heq
    by_cases hb : extractBody doc = ""
    · rw [if_pos hb] at heq
      exact hneq1 heq
    · rw [if_neg hb] at heq
      exact hneq2 doc heq
  · intro h4
    unfold processDocument
    rw [if_pos (hmark.mpr h4)]
  · intro hm
    unfold processDocument
    rw [if_pos hm]
    rfl

/-- Witness for C2: a marker-free document produces an error-flagged
result. -/
theorem processDocument_notSubstack_iff_witness :
    (processDocument noMarkersDoc).isError = some true :=
  (processDocument_notSubstack_iff noMarkersDoc).2 (by decide)

/-- C3: on a marker-positive document whose containers yield no paragraph
or heading text, the pipeline answers with the subscriber-only failure;
a result without the error flag always has a nonempty body, and an empty
assembled body always yields an error-flagged result. -/
theorem processDocument_paywall (doc : NodeList) :
    (hasSubstackMarkers doc = true → extractBody doc = "" →
       processDocument doc = subscriberOnlyResult) ∧
    ((processDocument doc).isError = none → extractBody doc ≠ "") ∧
    (extractBody doc = "" → (processDocument doc).isError = some true) := by
  refine ⟨?_, ?_, ?_⟩
  · intro hm hb
    unfold processDocument
    rw [if_neg (by simp [hm]), if_pos hb]
  · intro hn
    unfold processDocument at hn
    by_cases hm : hasSubstackMarkers doc = false
    · rw [if_pos hm] at hn
      simp [notSubstackResult] at hn
    · by_cases hb : extractBody doc = ""
      · rw [if_neg hm, if_pos hb] at hn
        simp [subscriberOnlyResult] at hn
      · exact hb
  · intro hb
    unfold processDocument
    by_cases hm : hasSubstackMarkers doc = false
    · rw [if_pos hm]
      rfl
    · rw [if_neg hm, if_pos hb]
      rfl

/-- Witness for C3 at the Scenario 3 document: a post-content container
holding only a subscriber banner yields the subscriber-only failure. -/
theorem processDocument_paywall_witness :
    processDocument scen3Doc = subscriberOnlyResult :=
  (processDocument_paywall scen3Doc).1 (by decide) (by decide)

/-- C4: every result without the error flag is a single text content
block holding exactly the Title, Author, Subtitle and body template; on
the Scenario 1 document the text is the stated literal. -/
theorem processDocument_success_format :
    (∀ doc : NodeList, (processDocument doc).isError = none →
       processDocument doc =
         ⟨[⟨"text", "Title: " ++ extractTitle doc ++ "\nAuthor: " ++ extractAuthor doc ++
             "\nSubtitle: " ++ extractSubtitle doc ++ "\n\n" ++ extractBody doc⟩], none⟩) ∧
    processDocument scen1Doc =
      ⟨[⟨"text", "Title: My Title\nAuthor: \nSubtitle: \n\nHello\n\n"⟩], none⟩ := by
  constructor
  · intro doc hn
    unfold processDocument at hn ⊢
    by_cases hm : hasSubstackMarkers doc = false
    · rw [if_pos hm] at hn
      simp [notSubstackResult] at hn
    · by_cases hb : extractBody doc = ""
      · rw [if_neg hm, if_pos hb] at hn
        simp [subscriberOnlyResult] at hn
      · rw [if_neg hm, if_neg hb]
        rfl
  · decide

/-- Witness for C4: the general template applied to the Scenario 1
document, whose result carries no error flag. -/
theorem processDocument_success_format_witness :
    processDocument scen1Doc =
      ⟨[⟨"text", "Title: " ++ extractTitle scen1Doc ++ "\nAuthor: " ++ extractAuthor scen1Doc ++
          "\nSubtitle: " ++ extractSubtitle scen1Doc ++ "\n\n" ++ extractBody scen1Doc⟩], none⟩ :=
  processDocument_success_format.1 scen1Doc (by decide)

/-- C6 counterexample: on a document with two subtitle elements the code
concatenates both texts, so the extracted subtitle differs from the
trimmed text of the first subtitle element that the claim demands. -/
theorem extractSubtitle_first_counterexample :
    extractSubtitle twoSubtitleDoc = "AB" ∧
    subtitleSpecFirst twoSubtitleDoc = "A" ∧
    extractSubtitle twoSubtitleDoc ≠ subtitleSpecFirst twoSubtitleDoc := by
  decide

/-- C6 amended: the extracted subtitle is the trimmed concatenation of
the texts of all elements with class subtitle; with at most one such
element it coincides with the first-element rule, with none it is empty,
and a failure result is never caused by a missing subtitle, only by a
missing marker or an empty body. -/
theorem extractSubtitle_amended (doc : NodeList) :
    extractSubtitle doc = strTrim (textsConcat (selectList (nodeHasClass "subtitle") doc)) ∧
    ((selectList (nodeHasClass "subtitle") doc).length ≤ 1 →
       extractSubtitle doc = subtitleSpecFirst doc) ∧
    (selectList (nodeHasClass "subtitle") doc = [] → extractSubtitle doc = "") ∧
    ((processDocument doc).isError = some true →
       hasSubstackMarkers doc = false ∨ extractBody doc = "") := by
  refine ⟨rfl, ?_, ?_, ?_⟩
  · intro hle
    unfold extractSubtitle subtitleSpecFirst
    cases h : selectList (nodeHasClass "subtitle") doc with
    | nil => simp [h, textsConcat, strTrim, trimList]
    | cons n ns =>
      cases ns with
      | nil => simp [h, textsConcat, str_append_empty]
      | cons m ms =>
        rw [h] at hle
        simp at hle
  · intro h
    unfold extractSubtitle
    simp [h, textsConcat, strTrim, trimList]
  · intro herr
    by_cases hm : hasSubstackMarkers doc = false
    · exact Or.inl hm
    · by_cases hb : extractBody doc = ""
      · exact Or.inr hb
      · exfalso
        unfold processDocument at herr
        rw [if_neg hm, if_neg hb] at herr
        simp [successResult] at herr

/-- Witness for C6 amended: a document without subtitle elements yields
the empty subtitle. -/
theorem extractSubtitle_amended_witness :
    extractSubtitle noMarkersDoc = "" :=
  (extractSubtitle_amended noMarkersDoc).2.2.1 rfl

/-- C7: a request whose tool name is not download_substack is answered by
throwing the unknown-tool error, while every request with the supported
name yields a returned structured result, never a throw. -/
theorem handleRequest_unknown_tool (name : String) (pu : Option URLRec)
    (fetched : Except String NodeList) :
    (name ≠ "download_substack" →
       handleRequest name pu fetched = Except.error ("Unknown tool: " ++ name)) ∧
    (∃ r : ToolResult, handleRequest "download_substack" pu fetched = Except.ok r) := by
  constructor
  · intro h
    unfold handleRequest
    rw [if_neg h]
  · unfold handleRequest
    rw [if_pos rfl]
    exact ⟨_, rfl⟩

/-- Witness for C7: an unsupported tool name aborts with the unknown-tool
error. -/
theorem handleRequest_unknown_tool_witness :
    handleRequest "other_tool" none (Except.error "x") =
      Except.error ("Unknown tool: " ++ "other_tool") :=
  (handleRequest_unknown_tool "other_tool" none (Except.error "x")).1 (by decide)

/-- C8: the parse-classify-extract pass is a pure function of the
document, so two runs on the identical document return identical
extracted fields and an identical result. -/
theorem extraction_deterministic (d1 d2 : NodeList) (h : d1 = d2) :
    processDocument d1 = processDocument d2 ∧
    extractTitle d1 = extractTitle d2 ∧
    extractSubtitle d1 = extractSubtitle d2 ∧
    extractAuthor d1 = extractAuthor d2 ∧
    extractBody d1 = extractBody d2 := by
  subst h
  exact ⟨rfl, rfl, rfl, rfl, rfl⟩

/-- Witness for C8 at the Scenario 1 document. -/
theorem extraction_deterministic_witness :
    processDocument scen1Doc = processDocument scen1Doc :=
  (extraction_deterministic scen1Doc scen1Doc rfl).1

/-- C10: every returned (non-thrown) response is exactly one content
block of type text; its isError field is either some true or absent, and
it is absent exactly on the success response built from a fetched
document. -/
theorem handleRequest_envelope (name : String) (pu : Option URLRec)
    (fetched : Except String NodeList) (r : ToolResult)
    (h : handleRequest name pu fetched = Except.ok r) :
    r.content.length = 1 ∧ (∀ b ∈ r.content, b.ctype = "text") ∧
    (r.isError = some true ∨ r.isError = none) ∧
    (r.isError = none → ∃ doc, fetched = Except.ok doc ∧ r = successResult doc) := by
  unfold handleRequest at h
  by_cases hn : name = "download_substack"
  · rw [if_pos hn] at h
    simp only [Except.ok.injEq] at h
    split at h
    · subst h
      refine ⟨by decide, by decide, by decide, ?_⟩
      intro hnone
      simp [invalidUrlResult] at hnone
    · split at h
      · subst h
        refine ⟨rfl, ?_, Or.inl rfl, ?_⟩
        · intro b hb
          simp [fetchErrorResult] at hb
          subst hb
          rfl
        · intro hnone
          simp [fetchErrorResult] at hnone
      · rename_i doc
        subst h
        unfold processDocument
        by_cases hm : hasSubstackMarkers doc = false
        · rw [if_pos hm]
          refine ⟨by decide, by decide, by decide, ?_⟩
          intro hnone
          simp [notSubstackResult] at hnone
        · by_cases hb : extractBody doc = ""
          · rw [if_neg hm, if_pos hb]
            refine ⟨by decide, by decide, by decide, ?_⟩
            intro hnone
            simp [subscriberOnlyResult] at hnone
          · rw [if_neg hm, if_neg hb]
            refine ⟨rfl, ?_, Or.inr rfl, fun _ => ⟨doc, rfl, rfl⟩⟩
            intro b hb2
            simp [successResult] at hb2
            subst hb2
            rfl
  · rw [if_neg hn] at h
    exact absurd h (by simp)

/-- Witness for C10: the response to a valid-name request with an
unparseable URL is the single error-flagged invalid-URL block. -/
theorem handleRequest_envelope_witness :
    invalidUrlResult.content.length = 1 ∧
    (∀ b ∈ invalidUrlResult.content, b.ctype = "text") ∧
    (invalidUrlResult.isError = some true ∨ invalidUrlResult.isError = none) ∧
    (invalidUrlResult.isError = none → ∃ doc,
       (Except.error "x" : Except String NodeList) = Except.ok doc ∧
       invalidUrlResult = successResult doc) :=
  handleRequest_envelope "download_substack" none (Except.error "x") invalidUrlResult (by rfl)

end Substack
